import Mathlib

/-!
Verification of the `create-supalite` setup-orchestration CLI.

Strings from the TypeScript source are modelled as `List Char`; external
subprocesses and interactive prompts are modelled as oracles (explicit
function/record parameters supplying the outcome of each external call or
user answer), so that each source function becomes a pure Lean function of
its inputs and its oracle.  ASCII behaviour of JavaScript `trim`,
`toUpperCase`, `toLowerCase` is assumed (all data handled by the tool is
ASCII).
-/

/-! ### Generic string helpers (models of the JS string primitives used) -/

/-- `leadsWith xs ys` is true when `xs` is a leading segment of `ys`
(model of JavaScript `String.startsWith`). -/
def leadsWith : List Char → List Char → Bool
  | [], _ => true
  | _ :: _, [] => false
  | x :: xs, y :: ys => x == y && leadsWith xs ys

/-- `containsSub xs ys` is true when `xs` occurs contiguously inside `ys`
(model of JavaScript `String.includes`). -/
def containsSub (xs : List Char) : List Char → Bool
  | [] => xs.isEmpty
  | y :: ys => leadsWith xs (y :: ys) || containsSub xs ys

/-- `splitChar c s` splits `s` at every occurrence of `c`
(model of JavaScript `String.split` with a one-character separator). -/
def splitChar (c : Char) : List Char → List (List Char)
  | [] => [[]]
  | x :: xs =>
    match splitChar c xs with
    | [] => [[]]
    | h :: t => if x == c then [] :: h :: t else (x :: h) :: t

/-- Strip leading and trailing whitespace (ASCII model of `String.trim`). -/
def trimChars (s : List Char) : List Char :=
  ((s.dropWhile Char.isWhitespace).reverse.dropWhile Char.isWhitespace).reverse

/-- Join lines, terminating every line with a newline.  The environment-file
template of `writeEnvFile` has exactly this shape. -/
def joinLines : List (List Char) → List Char
  | [] => []
  | l :: ls => l ++ '\n' :: joinLines ls

/-- ASCII model of JavaScript `String.toUpperCase`. -/
def toUpperChars (s : List Char) : List Char := s.map Char.toUpper

/-- ASCII model of JavaScript `String.toLowerCase`. -/
def lowerChars (s : List Char) : List Char := s.map Char.toLower

/-- Digits-only model of `parseInt` on the numeric inputs the port prompt
accepts; `none` models `NaN`. -/
def parseNatDigits (s : List Char) : Option Nat :=
  if s.isEmpty || !s.all Char.isDigit then none
  else some (s.foldl (fun n c => n * 10 + (c.toNat - '0'.toNat)) 0)

/-! ### Constants (`src/constants.ts`) -/

def DEFAULT_PORT : Nat := 3000
def MIN_PORT : Nat := 1
def MAX_PORT : Nat := 65535
def MIGRATION_RETRY_BASE_DELAY_MS : Nat := 10000
def MAX_MIGRATION_RETRIES : Nat := 3
def MIN_DB_PASSWORD_LENGTH : Nat := 12

/-! ### Data model (`src/types.ts`, `src/utils/supabase-cli.ts`) -/

inductive PM | npm | pnpm | bun
deriving DecidableEq, Repr

structure ProjectConfigM where
  projectName : List Char
  supabaseUrl : List Char
  supabaseAnonKey : List Char
  supabaseServiceKey : List Char
  targetDir : List Char
  packageManager : PM
  port : Option Nat
  dbPassword : Option (List Char)
deriving DecidableEq, Repr

structure OrgM where
  id : List Char
  name : List Char
deriving DecidableEq, Repr

structure ProjectM where
  id : List Char
  name : List Char
  organization_id : List Char
  region : List Char
  created_at : List Char
deriving DecidableEq, Repr

structure CredsM where
  url : List Char
  anonKey : List Char
  serviceKey : List Char
deriving DecidableEq, Repr

inductive SetupMethod | cliAuto | manual | cancelled
deriving DecidableEq, Repr

structure SetupResultM where
  config : Option ProjectConfigM
  method : SetupMethod
deriving DecidableEq, Repr

/-! ### Package-manager detector (`src/utils/detect-package-managers.ts`) -/

structure PMOption where
  value : PM
  label : List Char
  priority : Nat
deriving DecidableEq, Repr

def npmOpt : PMOption := ⟨.npm, "npm (default)".data, 3⟩
def pnpmOpt : PMOption := ⟨.pnpm, "pnpm (fast, efficient)".data, 1⟩
def bunOpt : PMOption := ⟨.bun, "bun (fastest)".data, 2⟩

/-- `allOptions` from `getAvailablePackageManagers`, in source order. -/
def allOptions : List PMOption := [npmOpt, pnpmOpt, bunOpt]

/-- The availability filter: on Windows npm is always included (the tool runs
under npm there), on other systems every candidate is probed with
`isPackageManagerInstalled`, modelled by the oracle `installed`. -/
def pmFilter (win : Bool) (installed : PM → Bool) (o : PMOption) : Bool :=
  if win then o.value == PM.npm || installed o.value else installed o.value

/-- `getAvailablePackageManagers`: filter by availability, then sort by
ascending `priority` (the JS comparator `a.priority - b.priority`; priorities
are distinct, so any stable sort gives the same result). -/
def getAvailablePackageManagers (win : Bool) (installed : PM → Bool) : List PMOption :=
  List.insertionSort (fun a b => a.priority ≤ b.priority)
    (allOptions.filter (pmFilter win installed))

/-- `getDefaultPackageManager`: throws when no candidate survives the filter,
otherwise returns the first (lowest-priority-number) entry. -/
def getDefaultPackageManager (win : Bool) (installed : PM → Bool) :
    Except (List Char) PM :=
  match getAvailablePackageManagers win installed with
  | [] => .error "No package manager found. Please install npm, pnpm, or bun.".data
  | o :: _ => .ok o.value

/-! ### Environment file (`writeEnvFile` in `src/utils/copy-template.ts`) -/

/-- The lines of `.env.local` exactly as interpolated by `writeEnvFile`:
two comment lines, the URL line, the anon-key line, a blank line, two more
comment lines.  Only the URL and the anon key are interpolated. -/
def envLines (url anon : List Char) : List (List Char) :=
  [ "# Supabase Configuration".data,
    "# Get these from https://app.supabase.com/project/_/settings/api".data,
    "NEXT_PUBLIC_SUPABASE_URL=".data ++ url,
    "NEXT_PUBLIC_SUPABASE_ANON_KEY=".data ++ anon,
    [],
    "# Note: Service role key NOT needed for runtime".data,
    "# Only used during initial setup by create-supalite CLI".data ]

/-- Full content written by `writeEnvFile` (every line newline-terminated,
matching the template literal). -/
def envFileContent (url anon : List Char) : List Char :=
  joinLines (envLines url anon)

/-- The Materializer (`createProject` step 3) writes the environment file from
the config's URL and anon key only. -/
def writtenEnvFile (c : ProjectConfigM) : List Char :=
  envFileContent c.supabaseUrl c.supabaseAnonKey

/-- The fixed comment text of the environment file (its four comment lines). -/
def fixedCommentText : List Char :=
  joinLines
    [ "# Supabase Configuration".data,
      "# Get these from https://app.supabase.com/project/_/settings/api".data,
      "# Note: Service role key NOT needed for runtime".data,
      "# Only used during initial setup by create-supalite CLI".data ]

/-! ### Organization listing (`getOrganizations` in `src/utils/supabase-cli.ts`) -/

/-- One line of the tabular fallback parse: kept exactly when it contains a
pipe, contains no `---`, and its upper-cased form contains neither `ID` nor
`NAME`; then split on `|`, trim the parts, and require at least two parts with
the first two non-empty. -/
def lineParse (line : List Char) : Option OrgM :=
  if containsSub ['|'] line
      && !containsSub "---".data line
      && !containsSub "ID".data (toUpperChars line)
      && !containsSub "NAME".data (toUpperChars line) then
    match (splitChar '|' line).map trimChars with
    | p0 :: p1 :: _ => if !p0.isEmpty && !p1.isEmpty then some ⟨p0, p1⟩ else none
    | _ => none
  else none

/-- Tabular (older-CLI) organization-list parse: split into lines and keep the
lines `lineParse` accepts. -/
def parseOrgsTable (output : List Char) : List OrgM :=
  (splitChar '\n' output).filterMap lineParse

inductive OrgError
  | cliError (stderr : List Char)
  | parseError
deriving DecidableEq, Repr

/-- `getOrganizations`, with the external pieces as parameters: `status`,
`stdout`, `stderr` are the `supabase orgs list --output json` subprocess
result, and `jsonParse` models `JSON.parse` followed by the `Array.isArray`
check and the field map (`some` exactly when `JSON.parse` succeeds with an
array).  On a non-zero exit it throws the stderr; otherwise it returns the
JSON array when one parses (even an empty one), and falls back to the tabular
parse, throwing `parseError` when that yields no entry. -/
def getOrganizations (jsonParse : List Char → Option (List OrgM))
    (status : Int) (stdout stderr : List Char) : Except OrgError (List OrgM) :=
  if status ≠ 0 then .error (.cliError stderr)
  else
    let output := trimChars stdout
    match jsonParse output with
    | some orgs => .ok orgs
    | none =>
      let orgs := parseOrgsTable output
      if orgs.isEmpty then .error .parseError else .ok orgs

/-! ### Migration applier (`src/utils/supabase-setup.ts`) -/

inductive MigEvent
  | link
  | push
  | wait (ms : Nat)
deriving DecidableEq, Repr

inductive MigErr
  | linkError
  | migrationError (stderr : List Char)
deriving DecidableEq, Repr

/-- Stderr inspection of a failed `supabase db push`: the two fixed substrings
marking a still-provisioning project. -/
def isProvisioningIssue (stderr : List Char) : Bool :=
  containsSub "Tenant or user not found".data stderr
    || containsSub "no route to host".data stderr

/-- Structural engine for `applyMigrationsViaCLI`.  `gas` is always
`MAX_MIGRATION_RETRIES - retryCount`, so `0 < gas` iff
`retryCount < MAX_MIGRATION_RETRIES` (the source's retry guard); the
recursion is on `gas` so that everything computes by `rfl`.
`linkOk k` and `pushErr k` are the outcomes of the `supabase link` and
`supabase db push` subprocesses spawned at recursion depth `k`
(`pushErr k = none` means exit code 0; `some s` means failure with stderr
`s`). -/
def applyCLIGo (linkOk : Nat → Bool) (pushErr : Nat → Option (List Char)) :
    Nat → Nat → List MigEvent × Except MigErr Unit
  | 0, r =>
    -- retryCount has reached MAX_MIGRATION_RETRIES: the retry guard is false,
    -- so any push failure is final regardless of its stderr.
    if linkOk r = false then ([.link], .error .linkError)
    else
      match pushErr r with
      | none => ([.link, .push], .ok ())
      | some stderr => ([.link, .push], .error (.migrationError stderr))
  | g + 1, r =>
    if linkOk r = false then ([.link], .error .linkError)
    else
      match pushErr r with
      | none => ([.link, .push], .ok ())
      | some stderr =>
        if isProvisioningIssue stderr then
          let rest := applyCLIGo linkOk pushErr g (r + 1)
          (.link :: .push :: .wait ((r + 1) * MIGRATION_RETRY_BASE_DELAY_MS) :: rest.1,
            rest.2)
        else ([.link, .push], .error (.migrationError stderr))

/-- `applyMigrationsViaCLI(targetDir, projectRef, dbPassword, retryCount)`:
link, then push, retrying the whole call (link included) with delay
`(retryCount+1) * MIGRATION_RETRY_BASE_DELAY_MS` while the stderr marks a
provisioning issue and `retryCount < MAX_MIGRATION_RETRIES`.  Returns the
trace of subprocess/wait events together with the outcome. -/
def applyMigrationsViaCLI (linkOk : Nat → Bool) (pushErr : Nat → Option (List Char))
    (retryCount : Nat) : List MigEvent × Except MigErr Unit :=
  applyCLIGo linkOk pushErr (MAX_MIGRATION_RETRIES - retryCount) retryCount

/-- The negative-lookahead test of the statement-splitting regex
`;(?![^$]*\$\$)`: at a `;`, `[^$]*\$\$` matches the following text exactly
when the first `$` after the `;` is immediately followed by another `$`. -/
def sqlLookahead (rest : List Char) : Bool :=
  match rest.dropWhile (fun c => !(c == '$')) with
  | '$' :: '$' :: _ => true
  | _ => false

/-- Split worker: cut at every `;` whose lookahead fails (the accumulator
holds the current piece reversed). -/
def splitSqlGo (cur : List Char) : List Char → List (List Char)
  | [] => [cur.reverse]
  | c :: rest =>
    if c == ';' && !sqlLookahead rest then cur.reverse :: splitSqlGo [] rest
    else splitSqlGo (c :: cur) rest

/-- `migrationSQL.split(/;(?![^$]*\$\$)/g)`. -/
def splitSql (sql : List Char) : List (List Char) := splitSqlGo [] sql

/-- The statement pipeline of `applyMigrationsViaAPI`: split, trim, drop empty
pieces and `--` comments. -/
def sqlStatements (sql : List Char) : List (List Char) :=
  ((splitSql sql).map trimChars).filter
    (fun s => !s.isEmpty && !leadsWith "--".data s)

/-- `applyMigrationsViaAPI`: the loop body unconditionally throws on its first
statement (the PostgREST probe it issues has no effect on control flow), so
the call fails whenever the statement list is non-empty and only succeeds
vacuously on an empty list. -/
def applyMigrationsViaAPI (sql : List Char) : Except (List Char) Unit :=
  match sqlStatements sql with
  | [] => .ok ()
  | _ :: _ => .error "Direct SQL execution not supported via API".data

inductive MigMethod | cli | api | manual
deriving DecidableEq, Repr

inductive StrategyCall | cliCall | apiCall
deriving DecidableEq, Repr

/-- External inputs of one `applyMigrations` run. -/
structure MigEnv where
  hasCLI : Bool
  dbPassword : Option (List Char)
  linkOk : Nat → Bool
  pushErr : Nat → Option (List Char)

/-- `applyMigrations`: when the CLI is present and a password was supplied it
attempts the CLI strategy, returning method `cli` on success and catching any
error to fall through to `manual`; otherwise it goes straight to `manual`.
The first component records which strategy functions were invoked.  (The
preliminary migration-file read and URL parse are assumed successful; their
failure would throw before any strategy is selected and is irrelevant to the
strategy choice.) -/
def applyMigrations (env : MigEnv) : List StrategyCall × MigMethod :=
  if env.hasCLI && env.dbPassword.isSome then
    match (applyMigrationsViaCLI env.linkOk env.pushErr 0).2 with
    | .ok _ => ([.cliCall], .cli)
    | .error _ => ([.cliCall], .manual)
  else ([], .manual)

/-! ### Project materializer (`src/create-project.ts`) -/

inductive MatStep
  | copyTemplate
  | setPM
  | writeEnvF
  | applyMig
  | genTypes
  | installDeps
deriving DecidableEq, Repr

/-- External outcomes of one `createProject` run: `none` in an error slot
means the step succeeds.  Type generation never aborts the pipeline (its
failure is recorded as skipped), so it carries no error slot. -/
structure MatEnv where
  copyErr : Option (List Char)
  setPmErr : Option (List Char)
  envErr : Option (List Char)
  mig : MigEnv
  typesOk : Bool
  installErr : Option (List Char)

/-- The `createProject` pipeline: copy template, patch package.json, write the
env file, apply migrations (the outcome only selects user messaging and never
aborts), attempt type generation (non-fatal), install dependencies (fatal on
failure).  Returns the steps performed and either the propagated error or the
migration method of a completed run. -/
def createProjectRun (env : MatEnv) : List MatStep × Except (List Char) MigMethod :=
  match env.copyErr with
  | some e => ([.copyTemplate], .error e)
  | none =>
    match env.setPmErr with
    | some e => ([.copyTemplate, .setPM], .error e)
    | none =>
      match env.envErr with
      | some e => ([.copyTemplate, .setPM, .writeEnvF], .error e)
      | none =>
        let mig := applyMigrations env.mig
        match env.installErr with
        | some e =>
          ([.copyTemplate, .setPM, .writeEnvF, .applyMig, .genTypes, .installDeps],
            .error e)
        | none =>
          ([.copyTemplate, .setPM, .writeEnvF, .applyMig, .genTypes, .installDeps],
            .ok mig.2)

/-! ### Interactive flow (`src/prompts/setup-method.ts`, `src/prompts/collect-info.ts`) -/

/-- Is `c` allowed by the character class `[a-z0-9-]`? -/
def isNameChar (c : Char) : Bool :=
  (decide ('a' ≤ c) && decide (c ≤ 'z'))
    || (decide ('0' ≤ c) && decide (c ≤ '9'))
    || (c == '-')

/-- `^[a-z0-9-]+$`. -/
def matchesNameRegex (s : List Char) : Bool :=
  !s.isEmpty && s.all isNameChar

/-- The project-name validator used by `handleProjectCreation` (line 348) and,
identically, by `handleExistingProject` (line 553): `none` means the value is
accepted. -/
def nameValidate (s : List Char) : Option (List Char) :=
  if s.isEmpty then some "Project name is required".data
  else if !matchesNameRegex s then
    some "Project name must be lowercase alphanumeric with hyphens".data
  else none

/-- The project-name validator of the manual-credentials path
(`collectProjectInfo`): it trims the value before testing the regex. -/
def collectNameValidate (s : List Char) : Option (List Char) :=
  if s.isEmpty then some "Project name is required".data
  else if !matchesNameRegex (trimChars s) then
    some "Project name must be lowercase alphanumeric with hyphens".data
  else none

/-- The database-password validator of `handleProjectCreation`. -/
def passwordValidate (s : List Char) : Option (List Char) :=
  if s.isEmpty then some "Password is required".data
  else if s.length < MIN_DB_PASSWORD_LENGTH then
    some "Password must be at least 12 characters".data
  else none

/-- The dev-server-port validator: numeric and within `MIN_PORT..MAX_PORT`. -/
def portValidate (s : List Char) : Option (List Char) :=
  match parseNatDigits s with
  | none => some "Port must be a number".data
  | some port =>
    if port < MIN_PORT || MAX_PORT < port then
      some "Port must be between 1 and 65535".data
    else none

/-- A validated text prompt: the widget re-asks until the user either cancels
(`none` in the input stream) or supplies a value the validator accepts; an
exhausted stream is treated as a cancel. -/
def promptText (validate : List Char → Option (List Char)) :
    List (Option (List Char)) → Option (List Char)
  | [] => none
  | none :: _ => none
  | some v :: rest =>
    if validate v = none then some v else promptText validate rest

/-- The Supabase-URL validator of `collectProjectInfo`. -/
def urlValidate (s : List Char) : Option (List Char) :=
  if s.isEmpty then some "Supabase URL is required".data
  else if !leadsWith "https://".data s || !containsSub "supabase.co".data s then
    some "Must be a valid Supabase URL".data
  else none

/-- The API-key validator of `collectProjectInfo` (anon and service_role). -/
def keyValidate (s : List Char) : Option (List Char) :=
  if s.isEmpty then some "Key is required".data
  else if s.length < 100 then some "Key appears invalid (too short)".data
  else none

/-- The user answers and detector result of one `collectProjectInfo`
(manual-credentials) run. -/
structure CollectEnv where
  nameInputs : List (Option (List Char))
  urlInputs : List (Option (List Char))
  anonInputs : List (Option (List Char))
  serviceInputs : List (Option (List Char))
  availablePMs : List PMOption
  pmChoice : Option PM
  portInputs : List (Option (List Char))

/-- `collectProjectInfo`: prompt for name (trimmed before use), URL, anon key,
service key; cancel (`none`) when the detector finds no package manager;
then the package-manager and port prompts; `none` on any user cancel.
The informational log output has no control effect and is not modelled. -/
def collectRun (env : CollectEnv) : Option ProjectConfigM :=
  match promptText collectNameValidate env.nameInputs with
  | none => none
  | some rawName =>
    match promptText urlValidate env.urlInputs with
    | none => none
    | some url =>
      match promptText keyValidate env.anonInputs with
      | none => none
      | some anon =>
        match promptText keyValidate env.serviceInputs with
        | none => none
        | some service =>
          if env.availablePMs.isEmpty then none
          else
            match env.pmChoice with
            | none => none
            | some pm =>
              match promptText portValidate env.portInputs with
              | none => none
              | some portStr =>
                some { projectName := trimChars rawName
                       supabaseUrl := url
                       supabaseAnonKey := anon
                       supabaseServiceKey := service
                       targetDir := trimChars rawName
                       packageManager := pm
                       port := parseNatDigits portStr
                       dbPassword := none }

/-- External calls made by `handleProjectCreation`, in order. -/
inductive FlowEvent
  | getOrgs
  | listProjects
  | createCall (name : List Char)
  | waitReady (projectId : List Char)
  | getCreds (projectId : List Char)
deriving DecidableEq, Repr

/-- All external inputs of one `handleProjectCreation` run: the user's prompt
answers and the outcomes of the platform-CLI calls it makes.
`collectEnv` feeds the `collectProjectInfo` run of the no-organizations
fallback, and `availablePMs` is the detector's result at the
package-manager prompt. -/
structure CreationEnv where
  nameInputs : List (Option (List Char))
  orgsResult : Except (List Char) (List OrgM)
  orgChoice : Option (List Char)
  regionChoice : Option (List Char)
  passwordInputs : List (Option (List Char))
  collectEnv : CollectEnv
  listProjectsResult : Except (List Char) (List ProjectM)
  createResult : Except (List Char) ProjectM
  readyResult : Bool
  credsResult : Except (List Char) CredsM
  availablePMs : List PMOption
  pmChoice : Option PM
  portInputs : List (Option (List Char))

/-- The `cancelled` terminal result (`{ config: null, method: 'cancelled' }`). -/
def cancelledR : SetupResultM := ⟨none, .cancelled⟩

/-- Final stage of `handleProjectCreation`: the package-manager and
dev-server-port prompts, then the assembled `ProjectConfig`.  The flow cancels
when the detector finds no package manager. -/
def creationFinish (env : CreationEnv) (name pw : List Char) (project : ProjectM)
    (creds : CredsM) : List FlowEvent × Except (List Char) SetupResultM :=
  if env.availablePMs.isEmpty then
    ([.getOrgs, .listProjects, .createCall name, .waitReady project.id,
        .getCreds project.id], .ok cancelledR)
  else
    match env.pmChoice with
    | none =>
      ([.getOrgs, .listProjects, .createCall name, .waitReady project.id,
          .getCreds project.id], .ok cancelledR)
    | some pm =>
      match promptText portValidate env.portInputs with
      | none =>
        ([.getOrgs, .listProjects, .createCall name, .waitReady project.id,
            .getCreds project.id], .ok cancelledR)
      | some portStr =>
        ([.getOrgs, .listProjects, .createCall name, .waitReady project.id,
            .getCreds project.id],
          .ok ⟨some
            { projectName := name
              supabaseUrl := creds.url
              supabaseAnonKey := creds.anonKey
              supabaseServiceKey := creds.serviceKey
              targetDir := name
              packageManager := pm
              port := parseNatDigits portStr
              dbPassword := some pw }, .cliAuto⟩)

/-- Credentials fetch for the created project; its error is wrapped in a
fixed message and rethrown. -/
def creationAfterReady (env : CreationEnv) (name pw : List Char)
    (project : ProjectM) : List FlowEvent × Except (List Char) SetupResultM :=
  match env.credsResult with
  | .error e =>
    ([.getOrgs, .listProjects, .createCall name, .waitReady project.id,
        .getCreds project.id],
      .error ("Failed to get project credentials: ".data ++ e))
  | .ok creds => creationFinish env name pw project creds

/-- Readiness wait for the created project; a timeout cancels the flow with a
null config. -/
def creationAfterCreate (env : CreationEnv) (name pw : List Char)
    (project : ProjectM) : List FlowEvent × Except (List Char) SetupResultM :=
  if env.readyResult = false then
    ([.getOrgs, .listProjects, .createCall name, .waitReady project.id],
      .ok cancelledR)
  else creationAfterReady env name pw project

/-- The creation command itself; its error is rethrown unchanged (to be
pattern-matched by `setupWithSupabaseCLI` for project-limit phrasing). -/
def creationNoDup (env : CreationEnv) (name pw : List Char) :
    List FlowEvent × Except (List Char) SetupResultM :=
  match env.createResult with
  | .error e => ([.getOrgs, .listProjects, .createCall name], .error e)
  | .ok project => creationAfterCreate env name pw project

/-- The duplicate-name check against the fetched project list: a
case-insensitive match on the name cancels with a null config before the
creation command. -/
def creationDupCheck (env : CreationEnv) (name pw : List Char)
    (projects : List ProjectM) : List FlowEvent × Except (List Char) SetupResultM :=
  if projects.any (fun q => lowerChars q.name == lowerChars name) then
    ([.getOrgs, .listProjects], .ok cancelledR)
  else creationNoDup env name pw

/-- The part of `handleProjectCreation` after an organization has been
selected (the straight-line remainder of the source function, split into the
stage functions above so each external interaction sits in its own
definition): pick a region, prompt for a password, fetch the full project
list, then run the duplicate check and the remaining stages. -/
def creationAfterOrg (env : CreationEnv) (name : List Char) :
    List FlowEvent × Except (List Char) SetupResultM :=
  match env.regionChoice with
  | none => ([.getOrgs], .ok cancelledR)
  | some _region =>
    match promptText passwordValidate env.passwordInputs with
    | none => ([.getOrgs], .ok cancelledR)
    | some pw =>
      match env.listProjectsResult with
      | .error e => ([.getOrgs, .listProjects], .error e)
      | .ok projects => creationDupCheck env name pw projects

/-- Organization selection: with exactly one organization it is used
directly (`orgs.length === 1`); otherwise the select prompt's answer decides,
a cancel ending the flow. -/
def creationOrgSelect (env : CreationEnv) (name : List Char) (o : OrgM)
    (orgRest : List OrgM) : List FlowEvent × Except (List Char) SetupResultM :=
  match if orgRest.isEmpty then some o.id else env.orgChoice with
  | none => ([.getOrgs], .ok cancelledR)
  | some _orgId => creationAfterOrg env name

/-- `handleProjectCreation`: prompt for a name, fetch organizations (throwing
a fixed message on failure, degrading to manual via `collectProjectInfo` when
none exist), select an organization, then continue with `creationAfterOrg`.
Returns the trace of platform calls and the result (`Except` models a thrown
error, caught by the caller `setupWithSupabaseCLI`). -/
def creationRun (env : CreationEnv) : List FlowEvent × Except (List Char) SetupResultM :=
  match promptText nameValidate env.nameInputs with
  | none => ([], .ok cancelledR)
  | some name =>
    match env.orgsResult with
    | .error _ => ([.getOrgs], .error "Failed to fetch organizations".data)
    | .ok orgs =>
      match orgs with
      | [] => ([.getOrgs], .ok ⟨collectRun env.collectEnv, .manual⟩)
      | o :: orgRest => creationOrgSelect env name o orgRest

/-! ### Entry point (`src/cli.ts`) -/

/-- `main`: run the setup flow; a null config exits 0 immediately; otherwise
run `createProject`, exiting 0 on success and 1 on a caught error; an error
escaping the setup flow itself is caught by `main().catch` and exits 1.
Returns whether the Materializer (`createProject`, which performs the template
copy) was invoked, together with the process exit status. -/
def mainRun (setup : Except (List Char) SetupResultM)
    (createRes : Except (List Char) Unit) : Bool × Nat :=
  match setup with
  | .error _ => (false, 1)
  | .ok res =>
    match res.config with
    | none => (false, 0)
    | some _ =>
      match createRes with
      | .ok _ => (true, 0)
      | .error _ => (true, 1)

/-! ### Helper lemmas about the string model -/

theorem containsSub_nil (ys : List Char) : containsSub [] ys = true := by
  cases ys <;> simp [containsSub, leadsWith, List.isEmpty]

theorem leadsWith_refl_append (xs t : List Char) : leadsWith xs (xs ++ t) = true := by
  induction xs with
  | nil => simp [leadsWith]
  | cons x xs ih => simp [leadsWith, ih]

theorem containsSub_of_leadsWith {xs ys : List Char} (h : leadsWith xs ys = true) :
    containsSub xs ys = true := by
  cases ys with
  | nil =>
    cases xs with
    | nil => simp [containsSub, List.isEmpty]
    | cons x xs => simp [leadsWith] at h
  | cons y ys => simp [containsSub, h]

theorem containsSub_cons_of {xs ys : List Char} (y : Char)
    (h : containsSub xs ys = true) : containsSub xs (y :: ys) = true := by
  simp [containsSub, h]

theorem containsSub_append_left {xs ys : List Char} (as : List Char)
    (h : containsSub xs ys = true) : containsSub xs (as ++ ys) = true := by
  induction as with
  | nil => exact h
  | cons a as ih => exact containsSub_cons_of a ih

theorem containsSub_sandwich (s xs t : List Char) :
    containsSub xs (s ++ (xs ++ t)) = true :=
  containsSub_append_left s (containsSub_of_leadsWith (leadsWith_refl_append xs t))

theorem leadsWith_stop {c : Char} {xs : List Char} (hc : c ∉ xs) :
    ∀ as bs : List Char, leadsWith xs (as ++ c :: bs) = true → leadsWith xs as = true := by
  induction xs with
  | nil => intro as bs _; simp [leadsWith]
  | cons x xs ih =>
    intro as bs h
    cases as with
    | nil =>
      simp only [List.nil_append, leadsWith, Bool.and_eq_true, beq_iff_eq] at h
      exact absurd (h.1 ▸ List.mem_cons_self x xs) hc
    | cons a as =>
      simp only [List.cons_append, leadsWith, Bool.and_eq_true] at h ⊢
      exact ⟨h.1, ih (fun hm => hc (List.mem_cons_of_mem x hm)) as bs h.2⟩

theorem containsSub_split {c : Char} {xs : List Char} (hc : c ∉ xs) :
    ∀ as bs : List Char, containsSub xs (as ++ c :: bs) = true →
      containsSub xs as = true ∨ containsSub xs bs = true := by
  intro as
  induction as with
  | nil =>
    intro bs h
    simp only [List.nil_append, containsSub, Bool.or_eq_true] at h
    rcases h with h | h
    · have hnil : leadsWith xs [] = true := leadsWith_stop hc [] bs h
      cases xs with
      | nil => exact Or.inl (containsSub_nil [])
      | cons x xs => simp [leadsWith] at hnil
    · exact Or.inr h
  | cons a as ih =>
    intro bs h
    simp only [List.cons_append, containsSub, Bool.or_eq_true] at h
    rcases h with h | h
    · exact Or.inl (containsSub_of_leadsWith (leadsWith_stop hc (a :: as) bs h))
    · rcases ih bs h with h' | h'
      · exact Or.inl (containsSub_cons_of a h')
      · exact Or.inr h'

theorem containsSub_joinLines {xs : List Char} (hnl : '\n' ∉ xs) (hne : xs ≠ []) :
    ∀ lines : List (List Char), containsSub xs (joinLines lines) = true →
      ∃ l ∈ lines, containsSub xs l = true := by
  intro lines
  induction lines with
  | nil =>
    intro h
    simp only [joinLines, containsSub] at h
    exact absurd (List.isEmpty_iff.mp h) hne
  | cons l ls ih =>
    intro h
    simp only [joinLines] at h
    rcases containsSub_split hnl l (joinLines ls) h with h' | h'
    · exact ⟨l, List.mem_cons_self l ls, h'⟩
    · rcases ih h' with ⟨l', hmem, hl'⟩
      exact ⟨l', List.mem_cons_of_mem l hmem, hl'⟩

theorem splitChar_ne_nil (c : Char) (s : List Char) : splitChar c s ≠ [] := by
  cases s with
  | nil => simp [splitChar]
  | cons x xs =>
    simp only [splitChar]
    match splitChar c xs with
    | [] => simp
    | h :: t =>
      by_cases hx : x == c <;> simp [hx]

theorem splitChar_no_sep {c : Char} : ∀ {l : List Char}, c ∉ l → splitChar c l = [l] := by
  intro l
  induction l with
  | nil => intro _; rfl
  | cons x xs ih =>
    intro h
    have hx : (x == c) = false := by
      simp only [beq_eq_false_iff_ne]
      exact fun he => h (he ▸ List.mem_cons_self x xs)
    have hxs := ih (fun hm => h (List.mem_cons_of_mem x hm))
    simp [splitChar, hxs, hx]

theorem splitChar_append_cons {c : Char} {l : List Char} (hl : c ∉ l)
    (rest : List Char) : splitChar c (l ++ c :: rest) = l :: splitChar c rest := by
  induction l with
  | nil =>
    simp only [List.nil_append, splitChar]
    rcases hsc : splitChar c rest with _ | ⟨h, t⟩
    · exact absurd hsc (splitChar_ne_nil c rest)
    · simp
  | cons x xs ih =>
    have hx : (x == c) = false := by
      simp only [beq_eq_false_iff_ne]
      exact fun he => hl (he ▸ List.mem_cons_self x xs)
    have hxs := ih (fun hm => hl (List.mem_cons_of_mem x hm))
    simp only [List.cons_append, splitChar, List.append_eq]
    rw [hxs]
    simp [hx]

theorem promptText_valid {v : List Char → Option (List Char)}
    {x : List Char} : ∀ {ins : List (Option (List Char))},
    promptText v ins = some x → v x = none := by
  intro ins
  induction ins with
  | nil => intro h; simp [promptText] at h
  | cons i rest ih =>
    intro h
    cases i with
    | none => simp [promptText] at h
    | some w =>
      by_cases hw : v w = none
      · simp only [promptText, hw, if_pos rfl] at h
        cases h
        exact hw
      · simp only [promptText, if_neg hw] at h
        exact ih h

/-! ### Migration applier: retry policy -/

/-- Unfolding of `applyMigrationsViaCLI` in source shape: the recursion guard
is literally `retryCount < MAX_MIGRATION_RETRIES`. -/
theorem applyMigrationsViaCLI_eq (linkOk : Nat → Bool)
    (pushErr : Nat → Option (List Char)) (r : Nat) :
    applyMigrationsViaCLI linkOk pushErr r =
      if linkOk r = false then ([.link], .error .linkError)
      else
        match pushErr r with
        | none => ([.link, .push], .ok ())
        | some stderr =>
          if isProvisioningIssue stderr = true ∧ r < MAX_MIGRATION_RETRIES then
            (.link :: .push :: .wait ((r + 1) * MIGRATION_RETRY_BASE_DELAY_MS) ::
                (applyMigrationsViaCLI linkOk pushErr (r + 1)).1,
              (applyMigrationsViaCLI linkOk pushErr (r + 1)).2)
          else ([.link, .push], .error (.migrationError stderr)) := by
  unfold applyMigrationsViaCLI
  rcases Nat.lt_or_ge r MAX_MIGRATION_RETRIES with hr | hr
  · obtain ⟨k, hk⟩ : ∃ k, MAX_MIGRATION_RETRIES - r = k + 1 :=
      ⟨MAX_MIGRATION_RETRIES - r - 1, by omega⟩
    have hk' : MAX_MIGRATION_RETRIES - (r + 1) = k := by omega
    rw [hk, hk']
    by_cases hl : linkOk r = false
    · simp [applyCLIGo, hl]
    · rcases hp : pushErr r with _ | stderr
      · simp [applyCLIGo, hl, hp]
      · by_cases hpr : isProvisioningIssue stderr = true
        · simp [applyCLIGo, hl, hp, hpr, hr]
        · simp [applyCLIGo, hl, hp, hpr]
  · have hk : MAX_MIGRATION_RETRIES - r = 0 := by omega
    have hr' : ¬ r < MAX_MIGRATION_RETRIES := by omega
    rw [hk]
    by_cases hl : linkOk r = false
    · simp [applyCLIGo, hl]
    · rcases hp : pushErr r with _ | stderr
      · simp [applyCLIGo, hl, hp]
      · simp [applyCLIGo, hl, hp, hr']

/-- C2 (amended: a retry re-runs the whole link+push sequence, not just the
push): for every migration-push failure at retry count `r` with captured
stderr, the applier retries — re-running link and push — exactly when the
stderr contains a provisioning substring and `r < MAX_MIGRATION_RETRIES`,
after a recorded delay of `(r+1) * 10000` ms; otherwise (no provisioning
substring, or `r = 3`) it fails at once with a `migrationError` carrying the
raw stderr and performs no wait and no further attempt. -/
theorem migration_push_retry_policy (linkOk : Nat → Bool)
    (pushErr : Nat → Option (List Char)) (r : Nat) (stderr : List Char)
    (hl : linkOk r = true) (hp : pushErr r = some stderr) :
    ((isProvisioningIssue stderr = true ∧ r < MAX_MIGRATION_RETRIES) →
        applyMigrationsViaCLI linkOk pushErr r =
          (.link :: .push :: .wait ((r + 1) * MIGRATION_RETRY_BASE_DELAY_MS) ::
              (applyMigrationsViaCLI linkOk pushErr (r + 1)).1,
            (applyMigrationsViaCLI linkOk pushErr (r + 1)).2))
      ∧ ((isProvisioningIssue stderr = false ∨ MAX_MIGRATION_RETRIES ≤ r) →
          applyMigrationsViaCLI linkOk pushErr r =
            ([.link, .push], .error (.migrationError stderr))) := by
  constructor
  · intro h
    rw [applyMigrationsViaCLI_eq]
    simp [hl, hp, h.1, h.2]
  · intro h
    have hne : ¬ (isProvisioningIssue stderr = true ∧ r < MAX_MIGRATION_RETRIES) := by
      rcases h with h | h
      · intro hc; rw [h] at hc; exact Bool.false_ne_true hc.1
      · intro hc; omega
    rw [applyMigrationsViaCLI_eq]
    simp only [hl, Bool.true_eq_false, if_false, hp]
    rw [if_neg hne]

/-- Oracle for the concrete retry runs: link always succeeds, the first push
fails with a provisioning stderr, the second succeeds. -/
def wLink : Nat → Bool := fun _ => true

def wPush : Nat → Option (List Char) :=
  fun k => if k = 0 then some "no route to host".data else none

theorem migration_push_retry_policy_witness :
    applyMigrationsViaCLI wLink wPush 0 =
      (.link :: .push :: .wait ((0 + 1) * MIGRATION_RETRY_BASE_DELAY_MS) ::
          (applyMigrationsViaCLI wLink wPush 1).1,
        (applyMigrationsViaCLI wLink wPush 1).2) :=
  (migration_push_retry_policy wLink wPush 0 "no route to host".data rfl rfl).1
    ⟨by decide, by decide⟩

/-- C2 counterexample to the claim as stated: on a provisioning failure the
retry re-invokes `supabase link` (the whole trace holds two `link` events),
contradicting "without repeating the link step". -/
theorem migration_retry_relinks_cex :
    applyMigrationsViaCLI wLink wPush 0 =
      ([.link, .push, .wait 10000, .link, .push], .ok ())
      ∧ (applyMigrationsViaCLI wLink wPush 0).1.count .link = 2 := by
  constructor
  · rfl
  · rfl

/-! ### C1: CLI-strategy failure falls back to manual, pipeline continues -/

/-- C1 (amended): when the CLI strategy is selected (CLI present, password
supplied) and `applyMigrationsViaCLI` fails — link failure or push failure
after retries — `applyMigrations` catches the error and returns the `manual`
outcome instead of propagating it, and the Materializer continues through the
type-generation and dependency-install steps, reporting the manual outcome. -/
theorem cli_migration_error_falls_back_to_manual (env : MatEnv) (e : MigErr)
    (hc : env.copyErr = none) (hs : env.setPmErr = none) (he : env.envErr = none)
    (hcli : env.mig.hasCLI = true) (hpw : env.mig.dbPassword.isSome = true)
    (hfail : (applyMigrationsViaCLI env.mig.linkOk env.mig.pushErr 0).2 = .error e) :
    (applyMigrations env.mig).2 = .manual
      ∧ MatStep.genTypes ∈ (createProjectRun env).1
      ∧ MatStep.installDeps ∈ (createProjectRun env).1
      ∧ (env.installErr = none → (createProjectRun env).2 = .ok .manual) := by
  have hman : applyMigrations env.mig = ([.cliCall], .manual) := by
    simp [applyMigrations, hcli, hpw, hfail]
  refine ⟨by rw [hman], ?_, ?_, ?_⟩ <;>
    · unfold createProjectRun
      rw [hc, hs, he]
      rcases hi : env.installErr with _ | e' <;> simp [hman]

def cexMigEnv : MigEnv :=
  ⟨true, some "password1234".data, fun _ => false, fun _ => none⟩

def cexMatEnv : MatEnv := ⟨none, none, none, cexMigEnv, true, none⟩

/-- C1 counterexample to the claim as stated: with the CLI strategy selected
and the link step failing, the applier reports the `manual` outcome and the
Materializer runs to completion — including type generation and dependency
install — rather than aborting. -/
theorem linkError_cex_pipeline_continues :
    (applyMigrationsViaCLI cexMigEnv.linkOk cexMigEnv.pushErr 0).2 =
        .error .linkError
      ∧ createProjectRun cexMatEnv =
        ([.copyTemplate, .setPM, .writeEnvF, .applyMig, .genTypes, .installDeps],
          .ok .manual) :=
  ⟨rfl, rfl⟩

theorem cli_migration_error_falls_back_to_manual_witness :
    (applyMigrations cexMatEnv.mig).2 = .manual
      ∧ MatStep.genTypes ∈ (createProjectRun cexMatEnv).1
      ∧ MatStep.installDeps ∈ (createProjectRun cexMatEnv).1 := by
  have h := cli_migration_error_falls_back_to_manual cexMatEnv .linkError
    rfl rfl rfl rfl rfl rfl
  exact ⟨h.1, h.2.1, h.2.2.1⟩

/-! ### C10: the api outcome is unreachable -/

/-- C10: `applyMigrations` only ever returns the `cli` or `manual` outcome and
never invokes the direct-API strategy, and `applyMigrationsViaAPI` itself
throws on every SQL input with a non-empty statement list. -/
theorem no_api_migration_outcome :
    (∀ env : MigEnv,
        (applyMigrations env).2 ≠ .api
          ∧ StrategyCall.apiCall ∉ (applyMigrations env).1)
      ∧ (∀ (sql s : List Char) (ss : List (List Char)),
          sqlStatements sql = s :: ss →
            applyMigrationsViaAPI sql =
              .error "Direct SQL execution not supported via API".data) := by
  constructor
  · intro env
    unfold applyMigrations
    by_cases h : (env.hasCLI && env.dbPassword.isSome) = true
    · rcases h2 : (applyMigrationsViaCLI env.linkOk env.pushErr 0).2 with u | er <;>
        simp [h, h2]
    · simp [h]
  · intro sql s ss h
    unfold applyMigrationsViaAPI
    rw [h]

def cexSql : List Char := "CREATE TABLE t (id int);".data

theorem no_api_migration_outcome_witness :
    applyMigrationsViaAPI cexSql =
      .error "Direct SQL execution not supported via API".data :=
  no_api_migration_outcome.2 cexSql "CREATE TABLE t (id int)".data [] (by decide)

/-! ### C4: process exit status -/

/-- C4 (amended): the process exits 0 on success and also 0 whenever the setup
flow ends without a config (cancellation, duplicate-name abort, provisioning
timeout); the exit status is 1 exactly when the setup flow itself throws or
the materialization pipeline raises an error after a config was produced.  A
null-config abort never invokes the Materializer. -/
theorem main_exit_code_characterization
    (setup : Except (List Char) SetupResultM) (createRes : Except (List Char) Unit) :
    ((mainRun setup createRes).2 = 1 ↔
        (∃ e, setup = .error e)
          ∨ (∃ cfg m e, setup = .ok ⟨some cfg, m⟩ ∧ createRes = .error e))
      ∧ (∀ m, mainRun (.ok ⟨none, m⟩) createRes = (false, 0)) := by
  constructor
  · rcases setup with e | ⟨cfg?, m⟩
    · simp [mainRun]
    · rcases cfg? with _ | cfg
      · simp [mainRun]
      · rcases createRes with e | u <;> simp [mainRun]
  · intro m
    simp [mainRun]

/-- C4 counterexample to the claim as stated: the cancellation abort path
(null config) exits with status 0, not 1. -/
theorem null_config_exit_zero_cex :
    mainRun (.ok ⟨none, .cancelled⟩) (.ok ()) = (false, 0) := rfl

/-! ### C5: organization-list parse failure -/

/-- C5 (amended): on a zero exit status, `getOrganizations` throws its parse
error exactly when the structured parse does not yield an array (of any
length) AND the tabular fallback yields zero entries; when the structured
parse yields an array — even an empty one — that array is returned without
error. -/
theorem org_parse_error_characterization
    (jsonParse : List Char → Option (List OrgM)) (stdout stderr : List Char) :
    getOrganizations jsonParse 0 stdout stderr = .error .parseError ↔
      (jsonParse (trimChars stdout) = none
        ∧ parseOrgsTable (trimChars stdout) = []) := by
  unfold getOrganizations
  rcases hj : jsonParse (trimChars stdout) with _ | orgs
  · rcases ht : parseOrgsTable (trimChars stdout) with _ | ⟨o, os⟩ <;> simp [hj, ht]
  · simp [hj]

/-- Model of `JSON.parse` restricted to the one input the counterexample
needs: on the text `[]`, `JSON.parse` succeeds with the empty array (which
passes the `Array.isArray` check). -/
def jsonEmptyArrayOnly : List Char → Option (List OrgM) :=
  fun s => if s = "[]".data then some [] else none

/-- C5 counterexample to the claim as stated: for the CLI output `[]` (exit
code 0) both formats yield zero entries, yet `getOrganizations` returns the
empty list instead of failing. -/
theorem empty_json_array_cex :
    getOrganizations jsonEmptyArrayOnly 0 "[]".data [] = .ok []
      ∧ jsonEmptyArrayOnly (trimChars "[]".data) = some []
      ∧ parseOrgsTable (trimChars "[]".data) = [] := by
  refine ⟨rfl, by decide, by decide⟩

/-! ### C3: the privileged key is never interpolated into the env file -/

/-- C3 (amended): the environment file is the fixed template with only the
public URL and the anonymous key interpolated.  For every `ProjectConfig`
whose privileged (service_role) key contains no newline and is not a substring
of any single line of that rendered file — the comment lines, the blank line,
the URL line `NEXT_PUBLIC_SUPABASE_URL=<url>`, or the anon-key line
`NEXT_PUBLIC_SUPABASE_ANON_KEY=<anonKey>` — the written file does not contain
the privileged key; and every line of the file is a comment line, the blank
line, the URL line, or the anon-key line. -/
theorem service_key_not_in_env_file (c : ProjectConfigM)
    (hnl : '\n' ∉ c.supabaseServiceKey)
    (hlines : ∀ l ∈ envLines c.supabaseUrl c.supabaseAnonKey,
      containsSub c.supabaseServiceKey l = false) :
    containsSub c.supabaseServiceKey (writtenEnvFile c) = false
      ∧ ∀ l ∈ envLines c.supabaseUrl c.supabaseAnonKey,
          l.head? = some '#' ∨ l = []
            ∨ l = "NEXT_PUBLIC_SUPABASE_URL=".data ++ c.supabaseUrl
            ∨ l = "NEXT_PUBLIC_SUPABASE_ANON_KEY=".data ++ c.supabaseAnonKey := by
  constructor
  · have hne : c.supabaseServiceKey ≠ [] := by
      intro h0
      have hfirst := hlines "# Supabase Configuration".data
        (by simp [envLines])
      rw [h0, containsSub_nil] at hfirst
      cases hfirst
    by_cases hcs : containsSub c.supabaseServiceKey (writtenEnvFile c) = true
    · have hjoin : containsSub c.supabaseServiceKey
          (joinLines (envLines c.supabaseUrl c.supabaseAnonKey)) = true := hcs
      obtain ⟨l, hm, hl⟩ := containsSub_joinLines hnl hne _ hjoin
      rw [hlines l hm] at hl
      cases hl
    · simpa using hcs
  · intro l hm
    simp only [envLines, List.mem_cons, List.not_mem_nil, or_false] at hm
    rcases hm with rfl | rfl | rfl | rfl | rfl | rfl | rfl
    · exact Or.inl (by decide)
    · exact Or.inl (by decide)
    · exact Or.inr (Or.inr (Or.inl rfl))
    · exact Or.inr (Or.inr (Or.inr rfl))
    · exact Or.inr (Or.inl rfl)
    · exact Or.inl (by decide)
    · exact Or.inl (by decide)

def wConfig : ProjectConfigM :=
  ⟨"demo-app".data, "https://xyz.supabase.co".data, "anonkey123".data,
    "SECRETSERVICEKEY".data, "demo-app".data, .pnpm, some 3000,
    some "password1234".data⟩

theorem service_key_not_in_env_file_witness :
    containsSub wConfig.supabaseServiceKey (writtenEnvFile wConfig) = false :=
  (service_key_not_in_env_file wConfig (by decide) (by decide)).1

def cexKeyConfig : ProjectConfigM :=
  ⟨"demo".data, "h".data, "a".data, "URL=h".data, "demo".data, .npm, none, none⟩

/-- C3 counterexample to the claim as stated: the privileged key `URL=h` is
not a substring of the backend URL `h`, of the anonymous key `a`, or of the
fixed comment text, yet it does occur in the written environment file (it
spans the fixed line prefix `NEXT_PUBLIC_SUPABASE_URL=` and the interpolated
URL). -/
theorem service_key_boundary_cex :
    containsSub cexKeyConfig.supabaseServiceKey cexKeyConfig.supabaseUrl = false
      ∧ containsSub cexKeyConfig.supabaseServiceKey cexKeyConfig.supabaseAnonKey = false
      ∧ containsSub cexKeyConfig.supabaseServiceKey fixedCommentText = false
      ∧ containsSub cexKeyConfig.supabaseServiceKey (writtenEnvFile cexKeyConfig) = true := by
  refine ⟨by decide, by decide, by decide, by decide⟩

/-! ### C6: tabular organization parse -/

/-- A well-formed data row `id|name` of the tabular format: no newlines or
pipes inside the fields, both fields non-empty after trimming, and the row
free of the skip markers (`---`, case-insensitive `ID`, case-insensitive
`NAME`). -/
def goodRow (id name : List Char) : Prop :=
  '\n' ∉ id ∧ '\n' ∉ name ∧ '|' ∉ id ∧ '|' ∉ name
    ∧ (trimChars id).isEmpty = false ∧ (trimChars name).isEmpty = false
    ∧ containsSub "---".data (id ++ '|' :: name) = false
    ∧ containsSub "ID".data (toUpperChars (id ++ '|' :: name)) = false
    ∧ containsSub "NAME".data (toUpperChars (id ++ '|' :: name)) = false

instance (id name : List Char) : Decidable (goodRow id name) := by
  unfold goodRow
  infer_instance

theorem row_no_newline {id name : List Char} (h1 : '\n' ∉ id) (h2 : '\n' ∉ name) :
    '\n' ∉ id ++ '|' :: name := by
  simp only [List.mem_append, List.mem_cons]
  push_neg
  exact ⟨h1, by decide, h2⟩

theorem lineParse_skip_ID {l : List Char}
    (h : containsSub "ID".data (toUpperChars l) = true) : lineParse l = none := by
  unfold lineParse
  simp [h]

theorem lineParse_skip_dash {l : List Char}
    (h : containsSub "---".data l = true) : lineParse l = none := by
  unfold lineParse
  simp [h]

theorem lineParse_row {id name : List Char} (h : goodRow id name) :
    lineParse (id ++ '|' :: name) = some ⟨trimChars id, trimChars name⟩ := by
  obtain ⟨-, -, hidp, hnamep, hide, hnamee, hdash, hID, hNAME⟩ := h
  have hpipe : containsSub ['|'] (id ++ '|' :: name) = true := by
    have h0 : id ++ '|' :: name = id ++ (['|'] ++ name) := by simp
    rw [h0]
    exact containsSub_sandwich id ['|'] name
  have hsplit : splitChar '|' (id ++ '|' :: name) = [id, name] := by
    rw [splitChar_append_cons hidp, splitChar_no_sep hnamep]
  unfold lineParse
  simp [hpipe, hdash, hID, hNAME, hsplit, hide, hnamee]

/-- C6 (amended): for every tabular output of a header line (recognized by
containing `ID` case-insensitively), a separator line (containing `---`), and
exactly three well-formed data rows (`goodRow`: non-empty trimmed id and name
fields that contain no pipe, with the row containing neither `---` nor,
case-insensitively, `ID` or `NAME`), followed by a final newline, the tabular
parser returns exactly the three organizations with trimmed fields, excluding
the header, separator, and trailing blank line. -/
theorem table_parse_three_rows
    (header sep id1 name1 id2 name2 id3 name3 : List Char)
    (hh : containsSub "ID".data (toUpperChars header) = true)
    (hhn : '\n' ∉ header)
    (hsep : containsSub "---".data sep = true)
    (hsn : '\n' ∉ sep)
    (h1 : goodRow id1 name1) (h2 : goodRow id2 name2) (h3 : goodRow id3 name3) :
    parseOrgsTable
        (header ++ ('\n' :: (sep ++ ('\n' :: ((id1 ++ '|' :: name1) ++
          ('\n' :: ((id2 ++ '|' :: name2) ++
            ('\n' :: ((id3 ++ '|' :: name3) ++ ('\n' :: [])))))))))) =
      [⟨trimChars id1, trimChars name1⟩, ⟨trimChars id2, trimChars name2⟩,
        ⟨trimChars id3, trimChars name3⟩] := by
  have hr1 := row_no_newline h1.1 h1.2.1
  have hr2 := row_no_newline h2.1 h2.2.1
  have hr3 := row_no_newline h3.1 h3.2.1
  have hsplit : splitChar '\n'
      (header ++ ('\n' :: (sep ++ ('\n' :: ((id1 ++ '|' :: name1) ++
        ('\n' :: ((id2 ++ '|' :: name2) ++
          ('\n' :: ((id3 ++ '|' :: name3) ++ ('\n' :: [])))))))))) =
      [header, sep, id1 ++ '|' :: name1, id2 ++ '|' :: name2,
        id3 ++ '|' :: name3, []] := by
    rw [splitChar_append_cons hhn, splitChar_append_cons hsn,
      splitChar_append_cons hr1, splitChar_append_cons hr2,
      splitChar_append_cons hr3]
    rfl
  have hblank : lineParse [] = none := by decide
  unfold parseOrgsTable
  rw [hsplit]
  simp [List.filterMap_cons, lineParse_skip_ID hh, lineParse_skip_dash hsep,
    lineParse_row h1, lineParse_row h2, lineParse_row h3, hblank]

theorem table_parse_three_rows_witness :
    parseOrgsTable
        ("  ID | NAME".data ++ ('\n' :: (" ---|--- ".data ++ ('\n' ::
          (("org-aaa ".data ++ '|' :: " Alpha ".data) ++ ('\n' ::
          ((" bbb".data ++ '|' :: "Beta".data) ++ ('\n' ::
          (("ccc".data ++ '|' :: "Gamma".data) ++ ('\n' :: [])))))))))) =
      [⟨"org-aaa".data, "Alpha".data⟩, ⟨"bbb".data, "Beta".data⟩,
        ⟨"ccc".data, "Gamma".data⟩] := by
  have h := table_parse_three_rows "  ID | NAME".data " ---|--- ".data
    "org-aaa ".data " Alpha ".data " bbb".data "Beta".data "ccc".data "Gamma".data
    (by decide) (by decide) (by decide) (by decide) (by decide) (by decide) (by decide)
  simpa using h

def cexTableOut : List Char :=
  "ID | NAME\n----------|----------\naaa|Alpha\ndavid|Bob\nccc|Gamma\n".data

/-- C6 counterexample to the claim as stated: an output with a header, a
separator, and exactly three pipe-delimited data rows with non-empty id and
name fields for which the parser returns only two organizations — the row
`david|Bob` is skipped because its upper-cased form contains `ID`. -/
theorem table_parse_skips_id_like_rows_cex :
    parseOrgsTable cexTableOut =
        [⟨"aaa".data, "Alpha".data⟩, ⟨"ccc".data, "Gamma".data⟩]
      ∧ (parseOrgsTable cexTableOut).length = 2
      ∧ lineParse "david|Bob".data = none := by
  refine ⟨by decide, by decide, by decide⟩

/-! ### C7: duplicate project name cancels before any creation call -/

/-- C7: in the create-new-project branch, whenever the flow reaches the
duplicate check (name, organization, region and password prompts all answered,
the project list fetched successfully) and the entered name matches an
existing project's name case-insensitively, the flow returns a null config
with method `cancelled`, the trace stops at the `listProjects` fetch, and the
project-creation command is never invoked. -/
theorem duplicate_name_cancels_before_create
    (env : CreationEnv) (name orgId region pw : List Char)
    (o : OrgM) (orgRest : List OrgM) (projects : List ProjectM)
    (hname : promptText nameValidate env.nameInputs = some name)
    (horgs : env.orgsResult = .ok (o :: orgRest))
    (horg : env.orgChoice = some orgId)
    (hreg : env.regionChoice = some region)
    (hpw : promptText passwordValidate env.passwordInputs = some pw)
    (hproj : env.listProjectsResult = .ok projects)
    (hdup : projects.any (fun q => lowerChars q.name == lowerChars name) = true) :
    creationRun env = ([.getOrgs, .listProjects], .ok cancelledR)
      ∧ ∀ n, FlowEvent.createCall n ∉ (creationRun env).1 := by
  have hrun : creationRun env = ([.getOrgs, .listProjects], .ok cancelledR) := by
    by_cases hoe : orgRest.isEmpty
    · simp [creationRun, creationOrgSelect, creationAfterOrg, creationDupCheck,
        hname, horgs, hoe, hreg, hpw, hproj, hdup]
    · simp [creationRun, creationOrgSelect, creationAfterOrg, creationDupCheck,
        hname, horgs, hoe, horg, hreg, hpw, hproj, hdup]
  refine ⟨hrun, fun n => ?_⟩
  rw [hrun]
  simp

def emptyCollectEnv : CollectEnv := ⟨[], [], [], [], [], none, []⟩

def wOrg : OrgM := ⟨"org1".data, "My Org".data⟩

def wDupProject : ProjectM :=
  ⟨"p1".data, "DEMO-APP".data, "org1".data, "us-east-1".data, "2025-01-01".data⟩

def envC7 : CreationEnv :=
  { nameInputs := [some "demo-app".data]
    orgsResult := .ok [wOrg]
    orgChoice := some "org1".data
    regionChoice := some "us-east-1".data
    passwordInputs := [some "password1234".data]
    collectEnv := emptyCollectEnv
    listProjectsResult := .ok [wDupProject]
    createResult := .error "unused".data
    readyResult := true
    credsResult := .error "unused".data
    availablePMs := [pnpmOpt]
    pmChoice := some .pnpm
    portInputs := [some "3000".data] }

theorem duplicate_name_cancels_before_create_witness :
    creationRun envC7 = ([.getOrgs, .listProjects], .ok cancelledR)
      ∧ FlowEvent.createCall "demo-app".data ∉ (creationRun envC7).1 := by
  have h := duplicate_name_cancels_before_create envC7 "demo-app".data
    "org1".data "us-east-1".data "password1234".data wOrg [] [wDupProject]
    rfl rfl rfl rfl rfl rfl (by decide)
  exact ⟨h.1, h.2 "demo-app".data⟩

/-! ### C8: name validation at prompt time -/

theorem createCall_decomp {tail : List FlowEvent} {name n : List Char}
    {pre post : List FlowEvent}
    (htail : ∀ x ∈ tail, ∀ m : List Char, x ≠ FlowEvent.createCall m)
    (h : FlowEvent.getOrgs :: FlowEvent.listProjects ::
          FlowEvent.createCall name :: tail
        = pre ++ FlowEvent.createCall n :: post) :
    n = name ∧ FlowEvent.listProjects ∈ pre := by
  cases pre with
  | nil => simp at h
  | cons a pre1 =>
    simp only [List.cons_append, List.cons.injEq] at h
    obtain ⟨ha, h⟩ := h
    cases pre1 with
    | nil => simp at h
    | cons b pre2 =>
      simp only [List.cons_append, List.cons.injEq] at h
      obtain ⟨hb, h⟩ := h
      cases pre2 with
      | nil =>
        simp only [List.nil_append, List.cons.injEq, FlowEvent.createCall.injEq] at h
        exact ⟨h.1.symm, by rw [← hb]; simp⟩
      | cons c pre3 =>
        simp only [List.cons_append, List.cons.injEq] at h
        obtain ⟨hc, h⟩ := h
        have hmem : FlowEvent.createCall n ∈ tail := by rw [h]; simp
        exact absurd rfl (htail _ hmem n)

theorem creationFinish_trace (env : CreationEnv) (name pw : List Char)
    (project : ProjectM) (creds : CredsM) :
    (creationFinish env name pw project creds).1 =
      [.getOrgs, .listProjects, .createCall name, .waitReady project.id,
        .getCreds project.id] := by
  unfold creationFinish
  by_cases hpm : env.availablePMs.isEmpty = true
  · rw [if_pos hpm]
  · rw [if_neg hpm]
    rcases hch : env.pmChoice with _ | pm
    · rfl
    · rcases hport : promptText portValidate env.portInputs with _ | portStr <;> rfl

theorem creationAfterReady_trace (env : CreationEnv) (name pw : List Char)
    (project : ProjectM) :
    (creationAfterReady env name pw project).1 =
      [.getOrgs, .listProjects, .createCall name, .waitReady project.id,
        .getCreds project.id] := by
  unfold creationAfterReady
  rcases hcd : env.credsResult with e | creds
  · rfl
  · exact creationFinish_trace env name pw project creds

theorem creationAfterCreate_shape (env : CreationEnv) (name pw : List Char)
    (project : ProjectM) :
    (creationAfterCreate env name pw project).1 =
        [.getOrgs, .listProjects, .createCall name, .waitReady project.id]
      ∨ (creationAfterCreate env name pw project).1 =
        [.getOrgs, .listProjects, .createCall name, .waitReady project.id,
          .getCreds project.id] := by
  unfold creationAfterCreate
  by_cases hrd : env.readyResult = false
  · rw [if_pos hrd]
    exact Or.inl rfl
  · rw [if_neg hrd]
    exact Or.inr (creationAfterReady_trace env name pw project)

theorem creationNoDup_shape (env : CreationEnv) (name pw : List Char) :
    ∃ pid,
      (creationNoDup env name pw).1 = [.getOrgs, .listProjects, .createCall name]
        ∨ (creationNoDup env name pw).1 =
            [.getOrgs, .listProjects, .createCall name, .waitReady pid]
        ∨ (creationNoDup env name pw).1 =
            [.getOrgs, .listProjects, .createCall name, .waitReady pid,
              .getCreds pid] := by
  unfold creationNoDup
  rcases hcr : env.createResult with e | project
  · exact ⟨[], Or.inl rfl⟩
  · rcases creationAfterCreate_shape env name pw project with h | h
    · exact ⟨project.id, Or.inr (Or.inl h)⟩
    · exact ⟨project.id, Or.inr (Or.inr h)⟩

theorem creationDupCheck_shape (env : CreationEnv) (name pw : List Char)
    (projects : List ProjectM) :
    (creationDupCheck env name pw projects).1 = [.getOrgs, .listProjects]
      ∨ ∃ pid,
          ((creationDupCheck env name pw projects).1 =
              [.getOrgs, .listProjects, .createCall name]
            ∨ (creationDupCheck env name pw projects).1 =
                [.getOrgs, .listProjects, .createCall name, .waitReady pid]
            ∨ (creationDupCheck env name pw projects).1 =
                [.getOrgs, .listProjects, .createCall name, .waitReady pid,
                  .getCreds pid]) := by
  unfold creationDupCheck
  by_cases hdup : (projects.any fun q => lowerChars q.name == lowerChars name) = true
  · rw [if_pos hdup]
    exact Or.inl rfl
  · rw [if_neg hdup]
    rcases creationNoDup_shape env name pw with ⟨pid, h⟩
    exact Or.inr ⟨pid, h⟩

/-- The trace of the post-organization stage is always a prefix of the call
sequence: project-list fetch, creation call (with the given name), readiness
wait, credentials fetch. -/
theorem creationAfterOrg_trace_shape (env : CreationEnv) (name : List Char) :
    (creationAfterOrg env name).1 = [.getOrgs]
      ∨ (creationAfterOrg env name).1 = [.getOrgs, .listProjects]
      ∨ ∃ pid,
          ((creationAfterOrg env name).1 = [.getOrgs, .listProjects, .createCall name]
            ∨ (creationAfterOrg env name).1 =
                [.getOrgs, .listProjects, .createCall name, .waitReady pid]
            ∨ (creationAfterOrg env name).1 =
                [.getOrgs, .listProjects, .createCall name, .waitReady pid,
                  .getCreds pid]) := by
  unfold creationAfterOrg
  rcases hreg : env.regionChoice with _ | region
  · exact Or.inl rfl
  · rcases hpw : promptText passwordValidate env.passwordInputs with _ | pw
    · exact Or.inl rfl
    · rcases hproj : env.listProjectsResult with e | projects
      · exact Or.inr (Or.inl rfl)
      · rcases creationDupCheck_shape env name pw projects with h | ⟨pid, h⟩
        · exact Or.inr (Or.inl h)
        · exact Or.inr (Or.inr ⟨pid, h⟩)

/-- The trace of a `handleProjectCreation` run is always a prefix of the full
call sequence: organizations fetch, project-list fetch, creation call (with
the validated name), readiness wait, credentials fetch. -/
theorem creationRun_trace_shape (env : CreationEnv) :
    (creationRun env).1 = []
      ∨ (creationRun env).1 = [.getOrgs]
      ∨ (creationRun env).1 = [.getOrgs, .listProjects]
      ∨ ∃ name pid, promptText nameValidate env.nameInputs = some name
          ∧ ((creationRun env).1 = [.getOrgs, .listProjects, .createCall name]
            ∨ (creationRun env).1 =
                [.getOrgs, .listProjects, .createCall name, .waitReady pid]
            ∨ (creationRun env).1 =
                [.getOrgs, .listProjects, .createCall name, .waitReady pid,
                  .getCreds pid]) := by
  have horgsel : ∀ (o : OrgM) (orgRest : List OrgM) (name : List Char),
      (creationOrgSelect env name o orgRest).1 = [.getOrgs]
        ∨ creationOrgSelect env name o orgRest = creationAfterOrg env name := by
    intro o orgRest name
    unfold creationOrgSelect
    by_cases hoe : orgRest.isEmpty = true
    · rw [if_pos hoe]
      exact Or.inr rfl
    · rw [if_neg hoe]
      rcases hsel : env.orgChoice with _ | oid
      · exact Or.inl rfl
      · exact Or.inr rfl
  unfold creationRun
  rcases hname : promptText nameValidate env.nameInputs with _ | name
  · exact Or.inl rfl
  · rcases horgs : env.orgsResult with e | orgs
    · exact Or.inr (Or.inl rfl)
    · rcases orgs with _ | ⟨o, orgRest⟩
      · exact Or.inr (Or.inl rfl)
      · rcases horgsel o orgRest name with h0 | h0
        · exact Or.inr (Or.inl h0)
        · have h0' : (creationOrgSelect env name o orgRest).1 =
              (creationAfterOrg env name).1 := congrArg Prod.fst h0
          rcases creationAfterOrg_trace_shape env name with h | h | ⟨pid, h⟩
          · exact Or.inr (Or.inl (h0'.trans h))
          · exact Or.inr (Or.inr (Or.inl (h0'.trans h)))
          · rcases h with h | h | h
            · exact Or.inr (Or.inr (Or.inr
                ⟨name, pid, rfl, Or.inl (h0'.trans h)⟩))
            · exact Or.inr (Or.inr (Or.inr
                ⟨name, pid, rfl, Or.inr (Or.inl (h0'.trans h))⟩))
            · exact Or.inr (Or.inr (Or.inr
                ⟨name, pid, rfl, Or.inr (Or.inr (h0'.trans h))⟩))

/-- C8 (amended: the manual-credentials path trims the entered name before
testing the regex, so inputs with surrounding whitespace are accepted there
and the trimmed name is what is used): the create-new-project and use-existing
validators accept exactly the names matching `^[a-z0-9-]+$`; the
manual-credentials validator accepts exactly the inputs whose trimmed form
matches; and in the create branch every project-creation call carries a name
that passed the regex at prompt time, after the project list was fetched. -/
theorem name_validation_policy :
    (∀ s : List Char, nameValidate s = none ↔ matchesNameRegex s = true)
      ∧ (∀ s : List Char,
          collectNameValidate s = none ↔ matchesNameRegex (trimChars s) = true)
      ∧ (∀ (env : CreationEnv) (pre post : List FlowEvent) (n : List Char),
          (creationRun env).1 = pre ++ FlowEvent.createCall n :: post →
            matchesNameRegex n = true ∧ FlowEvent.listProjects ∈ pre) := by
  have h1 : ∀ s : List Char, nameValidate s = none ↔ matchesNameRegex s = true := by
    intro s
    unfold nameValidate
    cases hE : s.isEmpty with
    | true => simp [matchesNameRegex, hE]
    | false =>
      cases hM : matchesNameRegex s with
      | true => simp [hM]
      | false => simp [hM]
  refine ⟨h1, ?_, ?_⟩
  · intro s
    unfold collectNameValidate
    cases hE : s.isEmpty with
    | true =>
      have : trimChars s = [] := by
        rw [List.isEmpty_iff] at hE
        simp [trimChars, hE]
      simp [matchesNameRegex, this]
    | false =>
      cases hM : matchesNameRegex (trimChars s) with
      | true => simp [hM]
      | false => simp [hM]
  · intro env pre post n h
    have hmem : FlowEvent.createCall n ∈ (creationRun env).1 := by rw [h]; simp
    rcases creationRun_trace_shape env with hs | hs | hs | ⟨name, pid, hname, hs⟩
    · rw [hs] at hmem; simp at hmem
    · rw [hs] at hmem; simp at hmem
    · rw [hs] at hmem; simp at hmem
    · have hval : matchesNameRegex name = true := (h1 name).mp (promptText_valid hname)
      rcases hs with hs | hs | hs <;> rw [hs] at h
      · obtain ⟨hn, hpre⟩ := createCall_decomp (by simp) h
        subst hn
        exact ⟨hval, hpre⟩
      · obtain ⟨hn, hpre⟩ := createCall_decomp (by simp) h
        subst hn
        exact ⟨hval, hpre⟩
      · obtain ⟨hn, hpre⟩ := createCall_decomp (by simp) h
        subst hn
        exact ⟨hval, hpre⟩

/-- C8 counterexample to the claim as stated: the input `" my-app "` does not
match `^[a-z0-9-]+$`, yet the manual-credentials validator accepts it (the
regex is applied to the trimmed value there). -/
theorem manual_name_trim_cex :
    collectNameValidate " my-app ".data = none
      ∧ matchesNameRegex " my-app ".data = false := by
  refine ⟨by decide, by decide⟩

def wProject : ProjectM :=
  ⟨"p1".data, "demo-app".data, "org1".data, "us-east-1".data, "2025-01-01".data⟩

def wCreds : CredsM :=
  ⟨"https://p1.supabase.co".data, "anon-key".data, "service-key".data⟩

def envHappy : CreationEnv :=
  { nameInputs := [some "demo-app".data]
    orgsResult := .ok [wOrg]
    orgChoice := some "org1".data
    regionChoice := some "us-east-1".data
    passwordInputs := [some "password1234".data]
    collectEnv := emptyCollectEnv
    listProjectsResult := .ok []
    createResult := .ok wProject
    readyResult := true
    credsResult := .ok wCreds
    availablePMs := [pnpmOpt, bunOpt, npmOpt]
    pmChoice := some .pnpm
    portInputs := [some "3000".data] }

theorem name_validation_policy_witness :
    matchesNameRegex "demo-app".data = true
      ∧ FlowEvent.listProjects ∈ [FlowEvent.getOrgs, FlowEvent.listProjects] :=
  name_validation_policy.2.2 envHappy [FlowEvent.getOrgs, FlowEvent.listProjects]
    [FlowEvent.waitReady "p1".data, FlowEvent.getCreds "p1".data]
    "demo-app".data rfl

/-! ### C9: package-manager detector -/

theorem creationFinish_cliAuto {env : CreationEnv} {name pw : List Char}
    {project : ProjectM} {creds : CredsM} {cfg : ProjectConfigM} {m : SetupMethod}
    (h : (creationFinish env name pw project creds).2 = .ok ⟨some cfg, m⟩) :
    env.availablePMs ≠ [] := by
  intro hnil
  have hpm : env.availablePMs.isEmpty = true := by rw [hnil]; rfl
  unfold creationFinish at h
  rw [if_pos hpm] at h
  simp [cancelledR] at h

theorem creationAfterReady_cliAuto {env : CreationEnv} {name pw : List Char}
    {project : ProjectM} {cfg : ProjectConfigM} {m : SetupMethod}
    (h : (creationAfterReady env name pw project).2 = .ok ⟨some cfg, m⟩) :
    env.availablePMs ≠ [] := by
  unfold creationAfterReady at h
  split at h
  · simp at h
  · exact creationFinish_cliAuto h

theorem creationAfterCreate_cliAuto {env : CreationEnv} {name pw : List Char}
    {project : ProjectM} {cfg : ProjectConfigM} {m : SetupMethod}
    (h : (creationAfterCreate env name pw project).2 = .ok ⟨some cfg, m⟩) :
    env.availablePMs ≠ [] := by
  unfold creationAfterCreate at h
  split at h
  · simp [cancelledR] at h
  · exact creationAfterReady_cliAuto h

theorem creationNoDup_cliAuto {env : CreationEnv} {name pw : List Char}
    {cfg : ProjectConfigM} {m : SetupMethod}
    (h : (creationNoDup env name pw).2 = .ok ⟨some cfg, m⟩) :
    env.availablePMs ≠ [] := by
  unfold creationNoDup at h
  split at h
  · simp at h
  · exact creationAfterCreate_cliAuto h

theorem creationDupCheck_cliAuto {env : CreationEnv} {name pw : List Char}
    {projects : List ProjectM} {cfg : ProjectConfigM} {m : SetupMethod}
    (h : (creationDupCheck env name pw projects).2 = .ok ⟨some cfg, m⟩) :
    env.availablePMs ≠ [] := by
  unfold creationDupCheck at h
  split at h
  · simp [cancelledR] at h
  · exact creationNoDup_cliAuto h

theorem creationAfterOrg_cliAuto {env : CreationEnv} {name : List Char}
    {cfg : ProjectConfigM} {m : SetupMethod}
    (h : (creationAfterOrg env name).2 = .ok ⟨some cfg, m⟩) :
    env.availablePMs ≠ [] := by
  unfold creationAfterOrg at h
  split at h
  · simp [cancelledR] at h
  · split at h
    · simp [cancelledR] at h
    · split at h
      · simp at h
      · exact creationDupCheck_cliAuto h

theorem creationOrgSelect_cliAuto {env : CreationEnv} {name : List Char}
    {o : OrgM} {orgRest : List OrgM} {cfg : ProjectConfigM} {m : SetupMethod}
    (h : (creationOrgSelect env name o orgRest).2 = .ok ⟨some cfg, m⟩) :
    env.availablePMs ≠ [] := by
  unfold creationOrgSelect at h
  split at h
  · simp [cancelledR] at h
  · exact creationAfterOrg_cliAuto h

theorem creationRun_config_needs_pm {env : CreationEnv} {cfg : ProjectConfigM}
    (h : (creationRun env).2 = .ok ⟨some cfg, SetupMethod.cliAuto⟩) :
    env.availablePMs ≠ [] := by
  unfold creationRun at h
  split at h
  · simp [cancelledR] at h
  · split at h
    · simp at h
    · split at h
      · simp at h
      · exact creationOrgSelect_cliAuto h

theorem collectRun_needs_pm {cenv : CollectEnv} {cfg : ProjectConfigM}
    (h : collectRun cenv = some cfg) : cenv.availablePMs ≠ [] := by
  unfold collectRun at h
  split at h
  · simp at h
  · split at h
    · simp at h
    · split at h
      · simp at h
      · split at h
        · simp at h
        · split at h
          · simp at h
          · next hpm =>
            intro hnil
            apply hpm
            rw [hnil]
            rfl

/-- C9: the detector returns the availability-filtered candidates sorted by
ascending numeric priority; selecting the default throws the fixed
"No package manager found" error exactly when the filtered list is empty;
when it is non-empty, the default is the head, whose numeric priority is
minimal; and an empty detector result is fatal before any template copy: no
config can be produced by the create flow (method `cli-auto`) or the
manual-credentials flow without a non-empty detector result, and a run that
ends without a config never invokes the Materializer (exit status 0 branch of
`main`, which performs no template copy). -/
theorem package_manager_detector_policy :
    (∀ (win : Bool) (installed : PM → Bool),
        getAvailablePackageManagers win installed =
          [pnpmOpt, bunOpt, npmOpt].filter (pmFilter win installed))
      ∧ (∀ (win : Bool) (installed : PM → Bool),
          getDefaultPackageManager win installed =
              .error "No package manager found. Please install npm, pnpm, or bun.".data
            ↔ getAvailablePackageManagers win installed = [])
      ∧ (∀ (win : Bool) (installed : PM → Bool) (o : PMOption) (rest : List PMOption),
          getAvailablePackageManagers win installed = o :: rest →
            getDefaultPackageManager win installed = .ok o.value
              ∧ ∀ q ∈ o :: rest, o.priority ≤ q.priority)
      ∧ (∀ (env : CreationEnv) (cfg : ProjectConfigM),
          (creationRun env).2 = .ok ⟨some cfg, SetupMethod.cliAuto⟩ →
            env.availablePMs ≠ [])
      ∧ (∀ (cenv : CollectEnv) (cfg : ProjectConfigM),
          collectRun cenv = some cfg → cenv.availablePMs ≠ [])
      ∧ (∀ (m : SetupMethod) (createRes : Except (List Char) Unit),
          mainRun (.ok ⟨none, m⟩) createRes = (false, 0)) := by
  have hsorted : ∀ (win : Bool) (installed : PM → Bool),
      getAvailablePackageManagers win installed =
        [pnpmOpt, bunOpt, npmOpt].filter (pmFilter win installed) := by
    intro win installed
    cases win <;>
      cases h1 : installed PM.npm <;>
        cases h2 : installed PM.pnpm <;>
          cases h3 : installed PM.bun <;>
            simp [getAvailablePackageManagers, pmFilter, allOptions,
              npmOpt, pnpmOpt, bunOpt, h1, h2, h3,
              List.insertionSort, List.orderedInsert]
  have hpair : List.Pairwise (fun a b : PMOption => a.priority ≤ b.priority)
      [pnpmOpt, bunOpt, npmOpt] := by
    simp [pnpmOpt, bunOpt, npmOpt]
  refine ⟨hsorted, ?_, ?_, ?_, ?_, ?_⟩
  · intro win installed
    constructor
    · intro h
      rcases hav : getAvailablePackageManagers win installed with _ | ⟨o, rest⟩
      · rfl
      · unfold getDefaultPackageManager at h
        rw [hav] at h
        simp at h
    · intro h
      unfold getDefaultPackageManager
      rw [h]
  · intro win installed o rest h
    have h' := h
    rw [hsorted win installed] at h'
    have hpw : List.Pairwise (fun a b : PMOption => a.priority ≤ b.priority)
        (o :: rest) := by
      rw [← h']
      exact hpair.sublist (List.filter_sublist _)
    constructor
    · unfold getDefaultPackageManager
      rw [h]
    · intro q hq
      rcases List.mem_cons.mp hq with rfl | hq
      · exact le_refl _
      · exact (List.pairwise_cons.mp hpw).1 q hq
  · intro env cfg h
    exact creationRun_config_needs_pm h
  · intro cenv cfg h
    exact collectRun_needs_pm h
  · intro m createRes
    rfl

def wCollectEnv : CollectEnv :=
  { nameInputs := [some "demo-app".data]
    urlInputs := [some "https://xyz.supabase.co".data]
    anonInputs := [some (List.replicate 120 'a')]
    serviceInputs := [some (List.replicate 120 's')]
    availablePMs := [pnpmOpt, bunOpt, npmOpt]
    pmChoice := some .pnpm
    portInputs := [some "3000".data] }

set_option maxRecDepth 8000 in
theorem package_manager_detector_policy_witness :
    getDefaultPackageManager false (fun _ => true) = .ok PM.pnpm
      ∧ pnpmOpt.priority ≤ npmOpt.priority
      ∧ envHappy.availablePMs ≠ []
      ∧ wCollectEnv.availablePMs ≠ [] := by
  have h3 := package_manager_detector_policy.2.2.1 false (fun _ => true)
    pnpmOpt [bunOpt, npmOpt] rfl
  have h4 := package_manager_detector_policy.2.2.2.1 envHappy
    { projectName := "demo-app".data
      supabaseUrl := wCreds.url
      supabaseAnonKey := wCreds.anonKey
      supabaseServiceKey := wCreds.serviceKey
      targetDir := "demo-app".data
      packageManager := PM.pnpm
      port := some 3000
      dbPassword := some "password1234".data } rfl
  have h5 := package_manager_detector_policy.2.2.2.2.1 wCollectEnv
    { projectName := "demo-app".data
      supabaseUrl := "https://xyz.supabase.co".data
      supabaseAnonKey := List.replicate 120 'a'
      supabaseServiceKey := List.replicate 120 's'
      targetDir := "demo-app".data
      packageManager := PM.pnpm
      port := some 3000
      dbPassword := none } rfl
  exact ⟨h3.1, h3.2 npmOpt (by simp), h4, h5⟩
